import Mathlib

/-!
Verification of the battery-monitor logging engine.

This file is a shallow embedding of the sampling-and-logging engine of the
ESP32 battery monitor firmware (`src/main.cpp`, together with the two earlier
firmware variants kept in the repository, here called `v1`/`v2` for
`part_001`/`part_002`).  Measured values are modelled exactly: `main.cpp`
formats every value with `dtostrf(data, 7, 3, buf)` (three decimals), so a
measurement is represented as an integer number of thousandths; the earlier
variants print with Arduino's default two decimals, so their measurements are
represented as integer numbers of hundredths.  File contents are `String`s;
Arduino's `println` emits a carriage return followed by a line feed.
-/

/-- Carriage-return/line-feed pair written by Arduino `Print::println()`. -/
def crlf : String := "\r\n"

/-- Model of RTClib's `DateTime` as read from the DS3231 clock. -/
structure DateTime where
  year : Nat
  month : Nat
  day : Nat
  hour : Nat
  minute : Nat
  second : Nat
deriving DecidableEq

/-- Fuel-driven helper for decimal rendering: with `n < fuel` it produces the
decimal digits of `n`, most significant first. -/
def natToDigitsAux : Nat → Nat → List Char
  | 0, _ => []
  | fuel + 1, n =>
    if n < 10 then [Nat.digitChar n]
    else natToDigitsAux fuel (n / 10) ++ [Nat.digitChar (n % 10)]

/-- Decimal digits of `n`, most significant first (always nonempty, `0 ↦ "0"`). -/
def natToDigits (n : Nat) : List Char := natToDigitsAux (n + 1) n

/-- Zero-padded decimal rendering with minimum width `w`, as `sprintf "%0wd"`. -/
def padZeros (w : Nat) (n : Nat) : List Char :=
  List.replicate (w - (natToDigits n).length) '0' ++ natToDigits n

/-- Characters of the `sprintf("%02d:%02d:%02d", hour, minute, second)`
time-of-day header used by `write_file` in `main.cpp` (and by
`DateTime::timestamp(TIMESTAMP_TIME)` in the earlier variants). -/
def hhmmssChars (t : DateTime) : List Char :=
  padZeros 2 t.hour ++ ':' :: (padZeros 2 t.minute ++ ':' :: padZeros 2 t.second)

/-- The `" --> "` separator between the minute header and the first value. -/
def arrowSep : String := " --> "

/-- Characters of `dtostrf(data, 7, 3, buf)`: the value rendered with three
decimal places and right-justified with spaces to a minimum width of 7
(the sign counts toward the width).  `v` is the value in thousandths. -/
def dtostrfChars (v : Int) : List Char :=
  let q := v.natAbs / 1000
  let r := v.natAbs % 1000
  let raw := (if v < 0 then ['-'] else []) ++ natToDigits q ++
      '.' :: [Nat.digitChar (r / 100), Nat.digitChar (r / 10 % 10), Nat.digitChar (r % 10)]
  List.replicate (7 - raw.length) ' ' ++ raw

/-- `dtostrf(data, 7, 3, buf)` as a string. -/
def dtostrf (v : Int) : String := ⟨dtostrfChars v⟩

/-- Characters of Arduino `Print::print(float)` with the default two decimal
places (used by the `v1`/`v2` variants); `v` is the value in hundredths. -/
def printFloat2Chars (v : Int) : List Char :=
  (if v < 0 then ['-'] else []) ++ natToDigits (v.natAbs / 100) ++
    '.' :: [Nat.digitChar (v.natAbs / 10 % 10), Nat.digitChar (v.natAbs % 10)]

/-- Arduino `Print::print(float)` (two decimals) as a string. -/
def printFloat2 (v : Int) : String := ⟨printFloat2Chars v⟩

/-- Log filename built by `main.cpp`'s
`sprintf(filename, "%s%04d-%02d-%02d.txt", filnamn.c_str(), year, month, day)`. -/
def logFileName (pre : String) (t : DateTime) : String :=
  pre ++ ⟨padZeros 4 t.year⟩ ++ "-" ++ ⟨padZeros 2 t.month⟩ ++ "-" ++ ⟨padZeros 2 t.day⟩ ++ ".txt"

/-- The minute header written at `count == 0` by `write_file` in `main.cpp`:
`file.println(); file.print(timestamp); file.print(" --> ");` — a blank line,
the `HH:MM:SS` time of day, then the arrow separator. -/
def minuteHeader (t : DateTime) : String :=
  crlf ++ ⟨hhmmssChars t⟩ ++ arrowSep

/-- The text appended to the file body by one `write_file` call in `main.cpp`
(lines 560-604): the header iff `count == 0`; then `dtostrf(data, 7, 3, ...)`;
then `", "` when `count < 59` and a `println()` line terminator otherwise. -/
def writeChunk (t : DateTime) (data : Int) (count : Nat) : String :=
  (if count = 0 then minuteHeader t else "") ++
    dtostrf data ++ (if count < 59 then (", " : String) else crlf)

/-- Error taxonomy of an append operation (spec section 7). -/
inductive WriteResult where
  | ok
  | clockInvalid
  | storageUnavailable
deriving DecidableEq

/-- Observable outcome of one `write_file` call in `main.cpp`: the reported
result, how many times `file.open` was called, how many times the storage
subsystem was reinitialized (`init_sd_card`) during the call, the file the
call targeted (`none` when it returned before building a filename), and the
resulting contents of that file. -/
structure WriteOutcome where
  result : WriteResult
  openAttempts : Nat
  reinits : Nat
  targetFile : Option String
  contents : String
deriving DecidableEq

/-- Model of `write_file(float data, int count, String filnamn)` from
`src/main.cpp` lines 506-657.  `openOk` abstracts whether
`file.open(filename, O_WRITE | O_CREAT | O_APPEND)` succeeds, and `contents`
is the target file's current contents.  The source: (1) reads the clock and
returns at once if `time.year() < 2000`, before any filename or open; (2)
otherwise opens the file exactly once — on failure it prints and publishes the
error and returns, with no retry and no call to `init_sd_card` inside
`write_file` (`init_sd_card` is invoked only from `setup()` and from the
10-second SD check in `loop()`); (3) on success seeks to the end, appends
`writeChunk`, and closes the file.  The verification read at counts
0/15/30/45/59 only reports; it never alters the contents. -/
def write_file (pre : String) (t : DateTime) (openOk : Bool) (contents : String)
    (data : Int) (count : Nat) : WriteOutcome :=
  if t.year < 2000 then ⟨.clockInvalid, 0, 0, none, contents⟩
  else if openOk then
    ⟨.ok, 1, 0, some (logFileName pre t), contents ++ writeChunk t data count⟩
  else ⟨.storageUnavailable, 1, 0, some (logFileName pre t), contents⟩

/-- The text appended by one `write_file` call of the earlier variants
(`part_001` lines 113-143, `part_002` lines 284-314): header iff `count == 0`;
`print(data)` and `", "` only when `count < 59`; a bare `println()` when
`count == 59` — the value itself is not written at index 59. -/
def writeChunkV2 (t : DateTime) (data : Int) (count : Nat) : String :=
  (if count = 0 then minuteHeader t else "") ++
    (if count < 59 then printFloat2 data ++ (", " : String) else "") ++
    (if count = 59 then crlf else "")

/-- Model of `write_file` from the `part_001`/`part_002` variants.  There is
no clock-validity check.  On `file.open` failure the call runs
`sd.errorHalt(...)`, which prints and halts the program forever — modelled as
`none`.  Otherwise the chunk is appended and the new contents returned. -/
def write_file_v2 (t : DateTime) (openOk : Bool) (contents : String)
    (data : Int) (count : Nat) : Option String :=
  if openOk then some (contents ++ writeChunkV2 t data count) else none

/-- One accepted tick of the `main.cpp` sampling loop updates `count`:
inside `while (count < 60)` the body does `count++`, and when the `while`
exits at 60 the loop epilogue resets `count = 0` before the next tick. -/
def loopStep (c : Nat) : Nat :=
  if c + 1 < 60 then c + 1 else 0

/-- The value of `count` at the n-th accepted tick of the sampling loop
(the value passed to `write_file` on that tick), starting from `count = 0`. -/
def countState : Nat → Nat
  | 0 => 0
  | n + 1 => loopStep (countState n)

/-- Successive `write_file` calls of `main.cpp` on one file: append the
values `vs` at consecutive counts starting from `start` (SD open succeeding,
clock fixed at `t`; chunks at nonzero counts do not read the clock). -/
def appendSamples (pre : String) (t : DateTime) (contents : String) :
    List Int → Nat → String
  | [], _ => contents
  | v :: vs, start =>
    appendSamples pre t (write_file pre t true contents v start).contents vs (start + 1)

/-- A whole run of complete minute windows: for each `(t, vs)` the sixty
values `vs` are appended at counts 0..59 with header time `t`. -/
def writeMinutes (pre : String) (contents : String) : List (DateTime × List Int) → String
  | [] => contents
  | (t, vs) :: ms => writeMinutes pre (appendSamples pre t contents vs 0) ms

/-- Observable outcome of one `connect_mqtt()` call in `main.cpp`: its return
value, the number of `mqtt.connect(...)` attempts made, the number of MQTT
messages published during the call, and whether the broker session is
connected when the call returns. -/
structure MqttOutcome where
  ret : Bool
  attempts : Nat
  publishes : Nat
  connectedAfter : Bool
deriving DecidableEq

/-- The `while (!mqtt.connected() && attempts < 3)` retry loop of
`connect_mqtt` (`main.cpp` lines 883-928): `oracle k` tells whether the k-th
`mqtt.connect` attempt of this call succeeds.  On a successful attempt the
call publishes the retained online-status message and a welcome log message
and returns `true`; after three failures it returns `false`. -/
def mqttAttemptLoop (oracle : Nat → Bool) : Nat → Nat → MqttOutcome
  | made, 0 => ⟨false, made, 0, false⟩
  | made, rem + 1 =>
    if oracle made then ⟨true, made + 1, 2, true⟩
    else mqttAttemptLoop oracle (made + 1) rem

/-- Model of `connect_mqtt()` from `main.cpp` lines 871-935.  `wifi` is the
`wifi_connected` flag and `conn` the value of `mqtt.connected()` at entry.
The source returns `false` at once when `!wifi_connected`, returns `true` at
once when `mqtt.connected()`, and otherwise runs the bounded retry loop
(the `publish_log` at entry is a no-op because the broker is not connected
at that point). -/
def connect_mqtt (wifi conn : Bool) (oracle : Nat → Bool) : MqttOutcome :=
  if wifi = false then ⟨false, 0, 0, conn⟩
  else if conn then ⟨true, 0, 0, conn⟩
  else mqttAttemptLoop oracle 0 3

/-- Number of `mqtt.connect` attempts performed during one accepted tick of
the `main.cpp` sampling loop (lines 411-423): when WiFi is up and the broker
session is connected the tick publishes data (no connect attempt); when WiFi
is up and the session is down the tick calls `connect_mqtt()`; otherwise
nothing MQTT-related runs. -/
def tickMqttAttempts (wifi conn : Bool) (oracle : Nat → Bool) : Nat :=
  if wifi ∧ conn then 0
  else if wifi ∧ ¬ conn then (connect_mqtt wifi conn oracle).attempts
  else 0

/-- The storage part of one accepted tick of the `main.cpp` sampling loop
(lines 374-459): when `sd_initialized`, the sample is appended to the Amps
and Volts files with the current `count`; otherwise logging is skipped with a
report.  In every case the tick ends with `count++` — no storage outcome
halts the loop, so the result is always `some`.  The returned list holds the
results of the two `write_file` calls (empty when logging was skipped). -/
def mainStorageTick (sdInit openOk : Bool) (t : DateTime) (amps volts : Int)
    (count : Nat) (fa fv : String) :
    Option (Nat × String × String × List WriteResult) :=
  if sdInit then
    let oa := write_file ("Amps ") t openOk fa amps count
    let ov := write_file ("Volts ") t openOk fv volts count
    some (count + 1, oa.contents, ov.contents, [oa.result, ov.result])
  else some (count + 1, fa, fv, [])

/-- The storage part of one tick of the `part_002` (and `part_001`) variant
loop: both `write_file` calls run unconditionally, and a failed open runs
`sd.errorHalt`, which halts the program (`none`).  Only when both writes
proceed does the tick complete with `count + 1`. -/
def variantStorageTick (openOk : Bool) (t : DateTime) (amps volts : Int)
    (count : Nat) (fa fv : String) : Option (Nat × String × String) :=
  match write_file_v2 t openOk fa amps count with
  | none => none
  | some fa' =>
    match write_file_v2 t openOk fv volts count with
    | none => none
    | some fv' => some (count + 1, fa', fv')

/-- The periodic SD check of `main.cpp` `loop()` (lines 341-371), run every
10 seconds: it tries to open the root directory; on success the card is
(re)marked initialized without reinitialization; on failure, if the card was
marked initialized, it is marked failed and `init_sd_card()` is invoked
(`initOk` abstracts that call's success).  Returns the new `sd_initialized`
flag and whether `init_sd_card` was invoked. -/
def sdCheckStep (rootOpenOk sdInit initOk : Bool) : Bool × Bool :=
  if rootOpenOk then (true, false)
  else if sdInit then (initOk, true)
  else (false, false)

/-! ### Parser for the log-file round trip

The repository has no parser; the spec describes reading a log file back by
splitting on blank-line boundaries, then on `" --> "`, then on `", "`.  The
functions below are modelled from the spec: split the text into lines on the
CRLF terminator, drop the blank lines, split each line at the `" --> "`
header separator, split the remainder on `", "`, and read each piece back as
a signed three-decimal number (ignoring the `dtostrf` space padding). -/

/-- Prepend a character to the first piece of a split (used while scanning). -/
def consFirst (c : Char) : List (List Char) → List (List Char)
  | [] => [[c]]
  | p :: ps => (c :: p) :: ps

/-- Split a character list on every occurrence of the separator
`c0 :: r`, scanning left to right. -/
def splitSep (c0 : Char) (r : List Char) : List Char → List (List Char)
  | [] => [[]]
  | x :: xs =>
    if x = c0 ∧ xs.take r.length = r then [] :: splitSep c0 r (xs.drop r.length)
    else consFirst x (splitSep c0 r xs)
termination_by l => l.length
decreasing_by
  · have := List.length_drop r.length xs
    simp
    omega
  · simp

/-- Split into lines at each CRLF. -/
def splitCRLF (l : List Char) : List (List Char) := splitSep '\r' ['\n'] l

/-- Split a line at each `" --> "` header separator. -/
def splitArrow (l : List Char) : List (List Char) := splitSep ' ' ['-', '-', '>', ' '] l

/-- Split a line body at each `", "` value separator. -/
def splitComma (l : List Char) : List (List Char) := splitSep ',' [' '] l

/-- Greedily read a decimal number, ten-fold accumulating; returns the value
and the unread remainder. -/
def parseAcc (acc : Nat) : List Char → Nat × List Char
  | [] => (acc, [])
  | c :: cs =>
    if c.isDigit then parseAcc (10 * acc + (c.toNat - 48)) cs else (acc, c :: cs)

/-- Read an unsigned fixed-point number with exactly three decimals, as an
integer number of thousandths. -/
def parseAbs (l : List Char) : Option Nat :=
  match parseAcc 0 l with
  | (n, '.' :: a :: b :: c :: []) =>
    if a.isDigit ∧ b.isDigit ∧ c.isDigit then
      some (n * 1000 + ((a.toNat - 48) * 100 + (b.toNat - 48) * 10 + (c.toNat - 48)))
    else none
  | _ => none

/-- Read an optionally negated three-decimal number. -/
def parseSigned (l : List Char) : Option Int :=
  match l with
  | [] => none
  | c :: cs =>
    if c = '-' then (parseAbs cs).map (fun n => -(Int.ofNat n))
    else (parseAbs (c :: cs)).map (fun n => Int.ofNat n)

/-- Read one value piece: skip the `dtostrf` space padding, then the number. -/
def parseValuePiece (l : List Char) : Option Int :=
  parseSigned (l.dropWhile (fun c => c = ' '))

/-- Read every piece of a split body; fails if any piece fails. -/
def parseValues : List (List Char) → Option (List Int)
  | [] => some []
  | p :: ps =>
    match parseValuePiece p, parseValues ps with
    | some v, some vs => some (v :: vs)
    | _, _ => none

/-- Read one log line: split at `" --> "` into the timestamp and the body,
then split the body on `", "` and read the values. -/
def parseLine (l : List Char) : Option (List Int) :=
  match splitArrow l with
  | [_, body] => parseValues (splitComma body)
  | _ => none

/-- Read every nonblank line. -/
def parseLines : List (List Char) → Option (List (List Int))
  | [] => some []
  | l :: ls =>
    match parseLine l, parseLines ls with
    | some vs, some rest => some (vs :: rest)
    | _, _ => none

/-- Parse a whole log file: split into lines on CRLF, drop the blank lines,
and read each remaining line's values. -/
def parseLogFile (s : String) : Option (List (List Int)) :=
  parseLines ((splitCRLF s.data).filter (fun p => !p.isEmpty))

/-- Expected character-level rendering of a minute body: the sixty values
separated by `", "`. -/
def bodyData : List Int → List Char
  | [] => []
  | [v] => dtostrfChars v
  | v :: vs => dtostrfChars v ++ (',' :: ' ' :: bodyData vs)

/-- Body text produced from count `k ≥ 1` to the end of the minute: every
value followed by `", "` except the last, which is followed by CRLF. -/
def bodyTail : List Int → List Char
  | [] => []
  | [v] => dtostrfChars v ++ ['\r', '\n']
  | v :: vs => dtostrfChars v ++ (',' :: ' ' :: bodyTail vs)

/-- Expected character-level rendering of one log line (no terminators). -/
def lineData (t : DateTime) (vs : List Int) : List Char :=
  hhmmssChars t ++ (' ' :: '-' :: '-' :: '>' :: ' ' :: bodyData vs)

/-- Expected character-level rendering of one full minute line, with its
leading blank line and trailing terminator. -/
def minuteData (t : DateTime) (vs : List Int) : List Char :=
  '\r' :: '\n' :: (hhmmssChars t ++ (' ' :: '-' :: '-' :: '>' :: ' ' :: (bodyData vs ++ ['\r', '\n'])))

/-- Expected character-level rendering of a whole run of minutes. -/
def fileData : List (DateTime × List Int) → List Char
  | [] => []
  | (t, vs) :: ms => minuteData t vs ++ fileData ms

/-- Sample date/time used by the concrete scenarios: 2024-06-03 14:35:00. -/
def T0 : DateTime := ⟨2024, 6, 3, 14, 35, 0⟩

/-- 2024-06-03 14:35:01. -/
def T1 : DateTime := ⟨2024, 6, 3, 14, 35, 1⟩

/-- 2024-06-03 14:35:02. -/
def T2 : DateTime := ⟨2024, 6, 3, 14, 35, 2⟩

/-- A date an invalid clock could report (year 1999 < 2000). -/
def T1999 : DateTime := ⟨1999, 1, 1, 0, 0, 0⟩

/-- The Amps file produced by the C4 scenario: three appends at counts
0, 1, 2 of the readings 1.234 A, 1.235 A, -0.002 A, starting from an empty
file, the clock reading 14:35:00 / 14:35:01 / 14:35:02 on 2024-06-03. -/
def c4File : String :=
  (write_file ("Amps ") T2 true
    (write_file ("Amps ") T1 true
      (write_file ("Amps ") T0 true ("") 1234 0).contents 1235 1).contents (-2) 2).contents

/-! ### Basic facts about digit rendering -/

theorem string_data_append (s t : String) : (s ++ t).data = s.data ++ t.data := rfl

theorem string_append_assoc (a b c : String) : a ++ b ++ c = a ++ (b ++ c) := by
  apply String.ext
  simp [string_data_append, List.append_assoc]

theorem digitChar_isDigit (d : Nat) (h : d < 10) : (Nat.digitChar d).isDigit = true := by
  interval_cases d <;> decide

theorem digitChar_toNat (d : Nat) (h : d < 10) : (Nat.digitChar d).toNat - 48 = d := by
  interval_cases d <;> decide

theorem natToDigitsAux_fuel (n : Nat) : ∀ f1 f2, n < f1 → n < f2 →
    natToDigitsAux f1 n = natToDigitsAux f2 n := by
  induction n using Nat.strong_induction_on with
  | _ n ih =>
    intro f1 f2 h1 h2
    cases f1 with
    | zero => omega
    | succ g1 =>
      cases f2 with
      | zero => omega
      | succ g2 =>
        rw [natToDigitsAux, natToDigitsAux]
        by_cases h : n < 10
        · rw [if_pos h, if_pos h]
        · rw [if_neg h, if_neg h]
          have hdiv : n / 10 < n := Nat.div_lt_self (by omega) (by omega)
          rw [ih (n / 10) hdiv g1 g2 (by omega) (by omega)]

/-- The defining recurrence of `natToDigits`. -/
theorem natToDigits_unfold (n : Nat) :
    natToDigits n = if n < 10 then [Nat.digitChar n]
      else natToDigits (n / 10) ++ [Nat.digitChar (n % 10)] := by
  unfold natToDigits
  rw [natToDigitsAux]
  by_cases h : n < 10
  · rw [if_pos h, if_pos h]
  · rw [if_neg h, if_neg h]
    have hdiv : n / 10 < n := Nat.div_lt_self (by omega) (by omega)
    rw [natToDigitsAux_fuel (n / 10) n (n / 10 + 1) (by omega) (by omega)]

theorem natToDigits_ne_nil (n : Nat) : natToDigits n ≠ [] := by
  rw [natToDigits_unfold]
  split <;> simp

theorem natToDigits_isDigit (n : Nat) : ∀ c ∈ natToDigits n, c.isDigit = true := by
  induction n using Nat.strong_induction_on with
  | _ n ih =>
    by_cases h : n < 10
    · rw [natToDigits_unfold, if_pos h]
      intro c hc
      rw [List.mem_singleton] at hc
      subst hc
      exact digitChar_isDigit n h
    · rw [natToDigits_unfold, if_neg h]
      intro c hc
      rcases List.mem_append.mp hc with h1 | h2
      · exact ih (n / 10) (Nat.div_lt_self (by omega) (by omega)) c h1
      · rw [List.mem_singleton] at h2
        subst h2
        exact digitChar_isDigit _ (Nat.mod_lt _ (by omega))

theorem padZeros_ne_nil (w n : Nat) : padZeros w n ≠ [] := by
  unfold padZeros
  intro h
  rcases List.append_eq_nil.mp h with ⟨-, h2⟩
  exact natToDigits_ne_nil n h2

theorem padZeros_isDigit (w n : Nat) : ∀ c ∈ padZeros w n, c.isDigit = true := by
  intro c hc
  unfold padZeros at hc
  rcases List.mem_append.mp hc with h1 | h2
  · rw [List.eq_of_mem_replicate h1]
    decide
  · exact natToDigits_isDigit n c h2

/-- A digit character is none of the structural characters of the log format. -/
theorem isDigit_ne (c : Char) (h : c.isDigit = true) :
    c ≠ '\r' ∧ c ≠ '\n' ∧ c ≠ ',' ∧ c ≠ '>' ∧ c ≠ ' ' ∧ c ≠ '-' ∧ c ≠ ':' := by
  refine ⟨?_, ?_, ?_, ?_, ?_, ?_, ?_⟩ <;>
    · intro he
      subst he
      exact absurd h (by decide)

/-- Every character of the time-of-day header is a digit or a colon. -/
theorem hhmmssChars_class (t : DateTime) :
    ∀ c ∈ hhmmssChars t, c.isDigit = true ∨ c = ':' := by
  intro c hc
  unfold hhmmssChars at hc
  simp only [List.mem_append, List.mem_cons] at hc
  rcases hc with h | h | h | h | h
  · exact Or.inl (padZeros_isDigit 2 t.hour c h)
  · exact Or.inr h
  · exact Or.inl (padZeros_isDigit 2 t.minute c h)
  · exact Or.inr h
  · exact Or.inl (padZeros_isDigit 2 t.second c h)

theorem hhmmssChars_ne_space (t : DateTime) : ∀ c ∈ hhmmssChars t, c ≠ ' ' := by
  intro c hc
  rcases hhmmssChars_class t c hc with h | h
  · exact (isDigit_ne c h).2.2.2.2.1
  · subst h; decide

theorem hhmmssChars_ne_cr (t : DateTime) : ∀ c ∈ hhmmssChars t, c ≠ '\r' := by
  intro c hc
  rcases hhmmssChars_class t c hc with h | h
  · exact (isDigit_ne c h).1
  · subst h; decide

theorem hhmmssChars_ne_nil (t : DateTime) : hhmmssChars t ≠ [] := by
  unfold hhmmssChars
  intro h
  rcases List.append_eq_nil.mp h with ⟨h1, -⟩
  exact padZeros_ne_nil 2 t.hour h1

/-- Every character of a `dtostrf` rendering is a digit, a space, a minus
sign, or a decimal point. -/
theorem dtostrfChars_class (v : Int) :
    ∀ c ∈ dtostrfChars v, c.isDigit = true ∨ c = ' ' ∨ c = '-' ∨ c = '.' := by
  intro c hc
  unfold dtostrfChars at hc
  simp only [List.mem_append, List.mem_cons, List.mem_singleton, List.not_mem_nil,
    or_false] at hc
  rcases hc with h | (h | h) | h | h | h | h
  · exact Or.inr (Or.inl (List.eq_of_mem_replicate h))
  · split at h
    · rw [List.mem_singleton] at h
      exact Or.inr (Or.inr (Or.inl h))
    · exact absurd h (List.not_mem_nil c)
  · exact Or.inl (natToDigits_isDigit _ c h)
  · exact Or.inr (Or.inr (Or.inr h))
  · subst h; exact Or.inl (digitChar_isDigit _ (by omega))
  · subst h; exact Or.inl (digitChar_isDigit _ (by omega))
  · subst h; exact Or.inl (digitChar_isDigit _ (by omega))

/-- No structural character of the format occurs in a `dtostrf` rendering. -/
theorem dtostrfChars_ne (v : Int) :
    ∀ c ∈ dtostrfChars v, c ≠ '\r' ∧ c ≠ '\n' ∧ c ≠ ',' ∧ c ≠ '>' := by
  intro c hc
  rcases dtostrfChars_class v c hc with h | h | h | h
  · exact ⟨(isDigit_ne c h).1, (isDigit_ne c h).2.1, (isDigit_ne c h).2.2.1,
      (isDigit_ne c h).2.2.2.1⟩
  all_goals subst h
  all_goals refine ⟨by decide, by decide, by decide, by decide⟩

theorem dtostrfChars_ne_nil (v : Int) : dtostrfChars v ≠ [] := by
  unfold dtostrfChars
  simp [List.append_eq_nil, natToDigits_ne_nil]

/-- The first character of a `dtostrf` rendering is never a carriage return
(it is a space, a minus sign, or a digit). -/
theorem dtostrfChars_head_ne_cr (v : Int) :
    ∃ c cs, dtostrfChars v = c :: cs ∧ c ≠ '\r' := by
  rcases hl : dtostrfChars v with _ | ⟨c, cs⟩
  · exact absurd hl (dtostrfChars_ne_nil v)
  · refine ⟨c, cs, rfl, ?_⟩
    exact (dtostrfChars_ne v c (by rw [hl]; exact List.mem_cons_self c cs)).1

/-! ### Split lemmas -/

theorem splitSep_ne_nil (c0 : Char) (r l : List Char) : splitSep c0 r l ≠ [] := by
  cases l with
  | nil => rw [splitSep]; simp
  | cons x xs =>
    rw [splitSep]
    split
    · simp
    · cases splitSep c0 r xs <;> simp [consFirst]

/-- Scanning `a ++ sep ++ b` where no character of `a` starts the separator
splits exactly at the separator. -/
theorem splitSep_boundary (c0 : Char) (r : List Char) (a b : List Char)
    (ha : ∀ y ∈ a, y ≠ c0) :
    splitSep c0 r (a ++ c0 :: (r ++ b)) = a :: splitSep c0 r b := by
  induction a with
  | nil =>
    rw [List.nil_append, splitSep]
    rw [if_pos ⟨rfl, List.take_left r b⟩, List.drop_left]
  | cons x a ih =>
    rw [List.cons_append, splitSep]
    rw [if_neg (by rintro ⟨h1, -⟩; exact ha x (List.mem_cons_self x a) h1)]
    rw [ih (fun y hy => ha y (List.mem_cons_of_mem x hy))]
    rfl

/-- A piece free of the separator's first character is returned whole. -/
theorem splitSep_no_first (c0 : Char) (r : List Char) (b : List Char)
    (hb : ∀ y ∈ b, y ≠ c0) :
    splitSep c0 r b = [b] := by
  induction b with
  | nil => rw [splitSep]
  | cons x xs ih =>
    rw [splitSep]
    rw [if_neg (by rintro ⟨h1, -⟩; exact hb x (List.mem_cons_self x xs) h1)]
    rw [ih (fun y hy => hb y (List.mem_cons_of_mem x hy))]
    rfl

/-- A piece free of `'>'` is returned whole by the `" --> "` split: any
occurrence of the separator would have to contain a `'>'`. -/
theorem splitArrow_no_gt (b : List Char) (hb : ∀ y ∈ b, y ≠ '>') :
    splitArrow b = [b] := by
  unfold splitArrow
  induction b with
  | nil => rw [splitSep]
  | cons x xs ih =>
    rw [splitSep]
    rw [if_neg ?hneg]
    case hneg =>
      rintro ⟨-, h2⟩
      have hmem : '>' ∈ xs.take (['-', '-', '>', ' '] : List Char).length := by
        rw [h2]; decide
      exact hb '>' (List.mem_cons_of_mem x (List.take_subset _ xs hmem)) rfl
    rw [ih (fun y hy => hb y (List.mem_cons_of_mem x hy))]
    rfl

/-! ### Reading a rendered number back -/

theorem parseAcc_nondigit (acc : Nat) (c : Char) (cs : List Char) (h : c.isDigit = false) :
    parseAcc acc (c :: cs) = (acc, c :: cs) := by
  rw [parseAcc, if_neg (by simp [h])]

theorem parseAcc_natToDigits (n : Nat) : ∀ acc rest,
    parseAcc acc (natToDigits n ++ rest) =
      parseAcc (acc * 10 ^ (natToDigits n).length + n) rest := by
  induction n using Nat.strong_induction_on with
  | _ n ih =>
    intro acc rest
    by_cases h : n < 10
    · rw [natToDigits_unfold, if_pos h]
      rw [List.singleton_append, parseAcc, if_pos (digitChar_isDigit n h)]
      rw [digitChar_toNat n h]
      rw [List.length_singleton, pow_one, Nat.mul_comm]
    · rw [natToDigits_unfold, if_neg h]
      rw [List.append_assoc, List.singleton_append,
        ih (n / 10) (Nat.div_lt_self (by omega) (by omega))]
      rw [parseAcc, if_pos (digitChar_isDigit _ (Nat.mod_lt _ (by omega)))]
      rw [digitChar_toNat _ (Nat.mod_lt _ (by omega))]
      rw [List.length_append, List.length_singleton, pow_succ]
      congr 1
      generalize 10 ^ (natToDigits (n / 10)).length = A
      have hmul : acc * (A * 10) = 10 * (acc * A) := by ring
      rw [hmul]
      generalize acc * A = B
      omega

theorem parseAbs_rendered (q r : Nat) (hr : r < 1000) :
    parseAbs (natToDigits q ++
      '.' :: [Nat.digitChar (r / 100), Nat.digitChar (r / 10 % 10), Nat.digitChar (r % 10)]) =
    some (q * 1000 + r) := by
  have h1 : parseAcc 0 (natToDigits q ++
      '.' :: [Nat.digitChar (r / 100), Nat.digitChar (r / 10 % 10), Nat.digitChar (r % 10)]) =
      (q, '.' :: [Nat.digitChar (r / 100), Nat.digitChar (r / 10 % 10), Nat.digitChar (r % 10)]) := by
    rw [parseAcc_natToDigits]
    rw [parseAcc_nondigit _ _ _ (by decide)]
    rw [Nat.zero_mul, Nat.zero_add]
  unfold parseAbs
  rw [h1]
  split
  case _ n a b c heq =>
    rw [Prod.mk.injEq] at heq
    obtain ⟨hq, hl⟩ := heq
    rw [List.cons.injEq] at hl
    obtain ⟨-, hl⟩ := hl
    rw [List.cons.injEq] at hl
    obtain ⟨ha, hl⟩ := hl
    rw [List.cons.injEq] at hl
    obtain ⟨hb, hl⟩ := hl
    rw [List.cons.injEq] at hl
    obtain ⟨hc, -⟩ := hl
    subst hq; subst ha; subst hb; subst hc
    rw [if_pos ⟨digitChar_isDigit _ (by omega), digitChar_isDigit _ (by omega),
      digitChar_isDigit _ (by omega)⟩]
    congr 1
    rw [digitChar_toNat _ (by omega), digitChar_toNat _ (by omega), digitChar_toNat _ (by omega)]
    omega
  case _ hne =>
    exact absurd rfl
      (by exact fun h => hne q (r / 100).digitChar (r / 10 % 10).digitChar (r % 10).digitChar h)

theorem dropWhile_space_cons (c : Char) (l : List Char) (h : c ≠ ' ') :
    (c :: l).dropWhile (fun x => x = ' ') = c :: l := by
  rw [List.dropWhile_cons]
  simp [h]

theorem dropWhile_space_replicate (k : Nat) (l : List Char) :
    (List.replicate k ' ' ++ l).dropWhile (fun c => c = ' ') =
      l.dropWhile (fun c => c = ' ') := by
  induction k with
  | zero => rw [List.replicate_zero, List.nil_append]
  | succ k ih =>
    rw [List.replicate_succ, List.cons_append, List.dropWhile_cons]
    simp only [decide_True, if_true]
    exact ih

/-- Reading back one `dtostrf` rendering recovers the value exactly. -/
theorem parseValuePiece_dtostrf (v : Int) : parseValuePiece (dtostrfChars v) = some v := by
  unfold parseValuePiece dtostrfChars
  rw [dropWhile_space_replicate]
  by_cases hv : v < 0
  · rw [if_pos hv]
    rw [List.append_assoc, List.singleton_append]
    rw [List.dropWhile_cons]
    rw [if_neg (by simp)]
    rw [parseSigned]
    rw [if_pos rfl]
    rw [parseAbs_rendered _ _ (Nat.mod_lt _ (by omega))]
    rw [Option.map_some']
    congr 1
    simp only [Int.ofNat_eq_coe]
    omega
  · rw [if_neg hv, List.nil_append]
    obtain ⟨c, cs, hq⟩ := List.exists_cons_of_ne_nil (natToDigits_ne_nil (v.natAbs / 1000))
    have hcd : c.isDigit = true := natToDigits_isDigit _ c (by rw [hq]; exact List.mem_cons_self c cs)
    rw [hq, List.cons_append]
    rw [List.dropWhile_cons]
    rw [if_neg (by simp [(isDigit_ne c hcd).2.2.2.2.1])]
    rw [parseSigned]
    rw [if_neg (isDigit_ne c hcd).2.2.2.2.2.1]
    rw [← List.cons_append, ← hq]
    rw [parseAbs_rendered _ _ (Nat.mod_lt _ (by omega))]
    rw [Option.map_some']
    congr 1
    simp only [Int.ofNat_eq_coe]
    omega

/-! ### What a run of appends renders, character by character -/

theorem write_file_contents_ok (pre : String) (t : DateTime) (hy : 2000 ≤ t.year)
    (c : String) (v : Int) (k : Nat) :
    (write_file pre t true c v k).contents = c ++ writeChunk t v k := by
  unfold write_file
  rw [if_neg (by omega), if_pos rfl]

theorem writeChunk_data_mid (t : DateTime) (v : Int) (k : Nat) (h0 : k ≠ 0) (h59 : k < 59) :
    (writeChunk t v k).data = dtostrfChars v ++ [',', ' '] := by
  unfold writeChunk
  rw [if_neg h0, if_pos h59]
  simp [string_data_append, dtostrf]

theorem writeChunk_data_59 (t : DateTime) (v : Int) :
    (writeChunk t v 59).data = dtostrfChars v ++ ['\r', '\n'] := by
  unfold writeChunk
  rw [if_neg (by omega), if_neg (by omega)]
  simp [string_data_append, dtostrf, crlf]

theorem writeChunk_data_0 (t : DateTime) (v : Int) :
    (writeChunk t v 0).data =
      '\r' :: '\n' :: (hhmmssChars t ++
        (' ' :: '-' :: '-' :: '>' :: ' ' :: (dtostrfChars v ++ [',', ' ']))) := by
  unfold writeChunk minuteHeader
  rw [if_pos rfl, if_pos (by omega)]
  simp [string_data_append, dtostrf, crlf, arrowSep]

theorem bodyData_cons (v w : Int) (ws : List Int) :
    bodyData (v :: w :: ws) = dtostrfChars v ++ (',' :: ' ' :: bodyData (w :: ws)) := by
  rw [bodyData]
  simp

theorem bodyTail_cons (v w : Int) (ws : List Int) :
    bodyTail (v :: w :: ws) = dtostrfChars v ++ (',' :: ' ' :: bodyTail (w :: ws)) := by
  rw [bodyTail]
  simp

theorem bodyTail_eq (vs : List Int) (h : vs ≠ []) :
    bodyTail vs = bodyData vs ++ ['\r', '\n'] := by
  induction vs with
  | nil => exact absurd rfl h
  | cons v ws ih =>
    cases ws with
    | nil => rw [bodyTail, bodyData]
    | cons w ws' =>
      rw [bodyTail_cons, bodyData_cons, ih (by simp)]
      simp

theorem appendSamples_data (pre : String) (t : DateTime) (hy : 2000 ≤ t.year) :
    ∀ (vs : List Int) (k : Nat) (c : String), 1 ≤ k → k + vs.length = 60 →
      (appendSamples pre t c vs k).data = c.data ++ bodyTail vs := by
  intro vs
  induction vs with
  | nil =>
    intro k c h1 h2
    rw [appendSamples, bodyTail]
    simp
  | cons v ws ih =>
    intro k c h1 h2
    rw [appendSamples]
    cases ws with
    | nil =>
      have hk : k = 59 := by simp at h2; omega
      subst hk
      rw [appendSamples]
      rw [write_file_contents_ok pre t hy]
      rw [string_data_append, writeChunk_data_59, bodyTail]
    | cons w ws' =>
      have hk59 : k < 59 := by simp at h2; omega
      rw [ih (k + 1) _ (by omega) (by simp at h2 ⊢; omega)]
      rw [write_file_contents_ok pre t hy]
      rw [string_data_append, writeChunk_data_mid t v k (by omega) hk59]
      rw [bodyTail_cons]
      simp

theorem appendSamples_minute (pre : String) (t : DateTime) (hy : 2000 ≤ t.year)
    (vs : List Int) (hlen : vs.length = 60) (c : String) :
    (appendSamples pre t c vs 0).data = c.data ++ minuteData t vs := by
  cases vs with
  | nil => simp at hlen
  | cons v ws =>
    rw [appendSamples]
    rw [appendSamples_data pre t hy ws 1 _ (by omega) (by simp at hlen ⊢; omega)]
    rw [write_file_contents_ok pre t hy]
    rw [string_data_append, writeChunk_data_0]
    have hws : ws ≠ [] := by
      intro h
      rw [h] at hlen
      simp at hlen
    rw [bodyTail_eq ws hws]
    unfold minuteData
    cases ws with
    | nil => exact absurd rfl hws
    | cons w ws' =>
      rw [bodyData_cons]
      simp

theorem writeMinutes_data (pre : String) :
    ∀ (ms : List (DateTime × List Int)) (c : String),
      (∀ p ∈ ms, 2000 ≤ p.1.year ∧ p.2.length = 60) →
      (writeMinutes pre c ms).data = c.data ++ fileData ms := by
  intro ms
  induction ms with
  | nil =>
    intro c h
    rw [writeMinutes, fileData]
    simp
  | cons p ms ih =>
    intro c h
    obtain ⟨t, vs⟩ := p
    rw [writeMinutes, fileData]
    rw [ih _ (fun q hq => h q (List.mem_cons_of_mem _ hq))]
    rw [appendSamples_minute pre t (h (t, vs) (List.mem_cons_self _ _)).1 vs
      (h (t, vs) (List.mem_cons_self _ _)).2]
    simp

/-! ### Parsing back what was rendered -/

theorem bodyData_chars (vs : List Int) :
    ∀ c ∈ bodyData vs, c ≠ '\r' ∧ c ≠ '\n' ∧ c ≠ '>' := by
  induction vs with
  | nil => intro c hc; rw [bodyData] at hc; exact absurd hc (List.not_mem_nil c)
  | cons v ws ih =>
    intro c hc
    cases ws with
    | nil =>
      rw [bodyData] at hc
      have h := dtostrfChars_ne v c hc
      exact ⟨h.1, h.2.1, h.2.2.2⟩
    | cons w ws' =>
      rw [bodyData_cons] at hc
      rcases List.mem_append.mp hc with h1 | h2
      · have h := dtostrfChars_ne v c h1
        exact ⟨h.1, h.2.1, h.2.2.2⟩
      · rcases List.mem_cons.mp h2 with h3 | h4
        · subst h3; refine ⟨by decide, by decide, by decide⟩
        · rcases List.mem_cons.mp h4 with h5 | h6
          · subst h5; refine ⟨by decide, by decide, by decide⟩
          · exact ih c h6

theorem lineData_no_cr (t : DateTime) (vs : List Int) :
    ∀ c ∈ lineData t vs, c ≠ '\r' := by
  intro c hc
  unfold lineData at hc
  rcases List.mem_append.mp hc with h1 | h2
  · exact hhmmssChars_ne_cr t c h1
  · simp only [List.mem_cons] at h2
    rcases h2 with h | h | h | h | h | h
    · subst h; decide
    · subst h; decide
    · subst h; decide
    · subst h; decide
    · subst h; decide
    · exact (bodyData_chars vs c h).1

theorem lineData_ne_nil (t : DateTime) (vs : List Int) : lineData t vs ≠ [] := by
  unfold lineData
  intro h
  rcases List.append_eq_nil.mp h with ⟨h1, -⟩
  exact hhmmssChars_ne_nil t h1

theorem splitCRLF_boundary (a b : List Char) (ha : ∀ y ∈ a, y ≠ '\r') :
    splitCRLF (a ++ '\r' :: '\n' :: b) = a :: splitCRLF b := by
  unfold splitCRLF
  have h := splitSep_boundary '\r' ['\n'] a b ha
  simpa using h

theorem splitCRLF_head (b : List Char) : splitCRLF ('\r' :: '\n' :: b) = [] :: splitCRLF b := by
  have h := splitCRLF_boundary [] b (by simp)
  simpa using h

theorem splitArrow_boundary (a b : List Char) (ha : ∀ y ∈ a, y ≠ ' ') :
    splitArrow (a ++ ' ' :: '-' :: '-' :: '>' :: ' ' :: b) = a :: splitArrow b := by
  unfold splitArrow
  have h := splitSep_boundary ' ' ['-', '-', '>', ' '] a b ha
  simpa using h

theorem splitComma_boundary (a b : List Char) (ha : ∀ y ∈ a, y ≠ ',') :
    splitComma (a ++ ',' :: ' ' :: b) = a :: splitComma b := by
  unfold splitComma
  have h := splitSep_boundary ',' [' '] a b ha
  simpa using h

theorem splitComma_bodyData (vs : List Int) (h : vs ≠ []) :
    splitComma (bodyData vs) = vs.map dtostrfChars := by
  induction vs with
  | nil => exact absurd rfl h
  | cons v ws ih =>
    cases ws with
    | nil =>
      rw [bodyData, List.map_singleton]
      exact splitSep_no_first ',' [' '] _ (fun y hy => (dtostrfChars_ne v y hy).2.2.1)
    | cons w ws' =>
      rw [bodyData_cons, List.map_cons]
      rw [splitComma_boundary _ _ (fun y hy => (dtostrfChars_ne v y hy).2.2.1)]
      rw [ih (by simp)]

theorem parseValues_map (vs : List Int) :
    parseValues (vs.map dtostrfChars) = some vs := by
  induction vs with
  | nil => rw [List.map_nil, parseValues]
  | cons v ws ih =>
    rw [List.map_cons, parseValues, parseValuePiece_dtostrf, ih]

/-- Reading back one rendered line recovers its sixty values. -/
theorem parseLine_lineData (t : DateTime) (vs : List Int) (h : vs ≠ []) :
    parseLine (lineData t vs) = some vs := by
  unfold parseLine lineData
  rw [splitArrow_boundary _ _ (hhmmssChars_ne_space t)]
  rw [splitArrow_no_gt (bodyData vs) (fun y hy => (bodyData_chars vs y hy).2.2)]
  show parseValues (splitComma (bodyData vs)) = some vs
  rw [splitComma_bodyData vs h]
  exact parseValues_map vs

theorem splitCRLF_fileData (ms : List (DateTime × List Int)) :
    (splitCRLF (fileData ms)).filter (fun p => !p.isEmpty) =
      ms.map (fun p => lineData p.1 p.2) := by
  induction ms with
  | nil =>
    rw [fileData]
    unfold splitCRLF
    rw [splitSep]
    rw [List.map_nil, List.filter_cons, List.filter_nil]
    simp
  | cons p ms ih =>
    obtain ⟨t, vs⟩ := p
    have hshape : fileData ((t, vs) :: ms) =
        '\r' :: '\n' :: (lineData t vs ++ '\r' :: '\n' :: fileData ms) := by
      rw [fileData]
      unfold minuteData lineData
      simp
    rw [hshape]
    rw [splitCRLF_head, splitCRLF_boundary _ _ (lineData_no_cr t vs)]
    rw [List.filter_cons, List.filter_cons]
    have h1 : (([] : List Char).isEmpty = true) := by decide
    have h2 : ((lineData t vs).isEmpty = false) := by
      rw [List.isEmpty_eq_false]
      exact lineData_ne_nil t vs
    rw [h1, h2]
    simp only [Bool.not_true, Bool.not_false, if_neg, if_pos, List.map_cons]
    rw [ih]
    simp

theorem parseLines_map (ms : List (DateTime × List Int))
    (h : ∀ p ∈ ms, p.2 ≠ []) :
    parseLines (ms.map (fun p => lineData p.1 p.2)) = some (ms.map Prod.snd) := by
  induction ms with
  | nil => rw [List.map_nil, parseLines, List.map_nil]
  | cons p ms ih =>
    obtain ⟨t, vs⟩ := p
    rw [List.map_cons, parseLines]
    rw [parseLine_lineData t vs (h (t, vs) (List.mem_cons_self _ _))]
    rw [ih (fun q hq => h q (List.mem_cons_of_mem _ hq))]
    rw [List.map_cons]

/-! ### Claim C1: the minute header is written iff the sample index is 0 -/

theorem string_left_cancel (s a b : String) (h : s ++ a = s ++ b) : a = b := by
  apply String.ext
  have hd := congrArg String.data h
  rw [string_data_append, string_data_append] at hd
  exact List.append_cancel_left hd

theorem minuteHeader_data (t : DateTime) :
    (minuteHeader t).data =
      '\r' :: '\n' :: (hhmmssChars t ++ [' ', '-', '-', '>', ' ']) := by
  unfold minuteHeader
  simp [string_data_append, crlf, arrowSep]

theorem writeChunk_not_header (t : DateTime) (d : Int) (c : Nat) (hc : c ≠ 0) :
    ∀ rest : String, writeChunk t d c ≠ minuteHeader t ++ rest := by
  intro rest heq
  have hd := congrArg String.data heq
  rw [string_data_append, minuteHeader_data] at hd
  have hchunk : (writeChunk t d c).data =
      dtostrfChars d ++ (if c < 59 then (", " : String) else crlf).data := by
    unfold writeChunk
    rw [if_neg hc]
    simp [string_data_append, dtostrf]
  obtain ⟨ch, cs, hch, hne⟩ := dtostrfChars_head_ne_cr d
  rw [hchunk, hch, List.cons_append] at hd
  injection hd with h1 h2
  exact hne h1

theorem printFloat2Chars_ne_nil (v : Int) : printFloat2Chars v ≠ [] := by
  unfold printFloat2Chars
  simp [List.append_eq_nil, natToDigits_ne_nil]

theorem printFloat2Chars_ne_cr (v : Int) : ∀ c ∈ printFloat2Chars v, c ≠ '\r' := by
  intro c hc
  unfold printFloat2Chars at hc
  rcases List.mem_append.mp hc with h1 | h2
  · rcases List.mem_append.mp h1 with h3 | h4
    · split at h3
      · rw [List.mem_singleton] at h3
        subst h3; decide
      · exact absurd h3 (List.not_mem_nil c)
    · exact (isDigit_ne c (natToDigits_isDigit _ c h4)).1
  · rcases List.mem_cons.mp h2 with h5 | h6
    · subst h5; decide
    · rcases List.mem_cons.mp h6 with h7 | h8
      · subst h7; exact (isDigit_ne _ (digitChar_isDigit _ (by omega))).1
      · rw [List.mem_singleton] at h8
        subst h8; exact (isDigit_ne _ (digitChar_isDigit _ (by omega))).1

theorem printFloat2Chars_head_ne_cr (v : Int) :
    ∃ ch cs, printFloat2Chars v = ch :: cs ∧ ch ≠ '\r' := by
  rcases hl : printFloat2Chars v with _ | ⟨ch, cs⟩
  · exact absurd hl (printFloat2Chars_ne_nil v)
  · exact ⟨ch, cs, rfl, printFloat2Chars_ne_cr v ch (by rw [hl]; exact List.mem_cons_self ch cs)⟩

theorem writeChunkV2_not_header (t : DateTime) (d : Int) (c : Nat) (hc : c ≠ 0) :
    ∀ rest : String, writeChunkV2 t d c ≠ minuteHeader t ++ rest := by
  intro rest heq
  have hd := congrArg String.data heq
  rw [string_data_append, minuteHeader_data] at hd
  by_cases h59 : c < 59
  · have hchunk : (writeChunkV2 t d c).data =
        printFloat2Chars d ++ (',' :: ' ' :: (if c = 59 then crlf else ("" : String)).data) := by
      unfold writeChunkV2
      rw [if_neg hc, if_pos h59]
      simp [string_data_append, printFloat2]
    obtain ⟨ch, cs, hch, hne⟩ := printFloat2Chars_head_ne_cr d
    rw [hchunk, hch, List.cons_append] at hd
    injection hd with h1 h2
    exact hne h1
  · have hlen := congrArg List.length hd
    have hchunk : (writeChunkV2 t d c).data = (if c = 59 then crlf else ("" : String)).data := by
      unfold writeChunkV2
      rw [if_neg hc, if_neg h59]
      simp [string_data_append]
    rw [hchunk] at hlen
    have hsmall : (if c = 59 then crlf else ("" : String)).data.length ≤ 2 := by
      split <;> decide
    simp only [List.length_append, List.length_cons, List.length_nil] at hlen
    omega

/-- C1: for every `write_file` call (in `main.cpp` and in the earlier
variants), the minute header — a blank line, the current `HH:MM:SS`
time-of-day, then `" --> "` — is written to the file if and only if the
sample index `count` equals 0. -/
theorem write_header_iff_count_zero (pre : String) (t : DateTime) (ht : 2000 ≤ t.year)
    (old : String) (d d2 : Int) (c : Nat) :
    ((∃ rest, (write_file pre t true old d c).contents = old ++ (minuteHeader t ++ rest)) ↔
      c = 0) ∧
    ((∃ rest, write_file_v2 t true old d2 c = some (old ++ (minuteHeader t ++ rest))) ↔
      c = 0) := by
  constructor
  · constructor
    · rintro ⟨rest, hrest⟩
      rw [write_file_contents_ok pre t ht] at hrest
      have hchunk := string_left_cancel old _ _ hrest
      by_contra hc
      exact writeChunk_not_header t d c hc rest hchunk
    · rintro rfl
      refine ⟨dtostrf d ++ (", " : String), ?_⟩
      rw [write_file_contents_ok pre t ht]
      congr 1
      unfold writeChunk
      rw [if_pos rfl, if_pos (by omega)]
      rw [string_append_assoc]
  · constructor
    · rintro ⟨rest, hrest⟩
      unfold write_file_v2 at hrest
      rw [if_pos rfl] at hrest
      rw [Option.some.injEq] at hrest
      have hchunk := string_left_cancel old _ _ hrest
      by_contra hc
      exact writeChunkV2_not_header t d2 c hc rest hchunk
    · rintro rfl
      refine ⟨(printFloat2 d2 ++ (", " : String)) ++ ("" : String), ?_⟩
      unfold write_file_v2
      rw [if_pos rfl]
      rw [Option.some.injEq]
      congr 1
      unfold writeChunkV2
      rw [if_pos rfl, if_pos (by omega), if_neg (by omega)]
      rw [string_append_assoc]

/-- Witness for C1 at a concrete input: appending at index 0 on the sample
date writes the header. -/
theorem write_header_iff_count_zero_witness :
    ∃ rest, (write_file ("Amps ") T0 true ("") 1234 0).contents =
      ("") ++ (minuteHeader T0 ++ rest) :=
  ((write_header_iff_count_zero ("Amps ") T0 (by decide) ("") 1234 150 0).1).mpr rfl

/-! ### Claim C2: the sample index is strictly increasing per window and wraps -/

theorem countState_mod (n : Nat) : countState n = n % 60 := by
  induction n with
  | zero => rfl
  | succ n ih =>
    rw [countState, ih]
    unfold loopStep
    split <;> omega

/-- C2: for every sequence of accepted ticks of the sampling loop, the
`count` passed to `write_file` is strictly increasing within a minute window
(ticks with the same window number `n / 60`), and it is 0 exactly at the
ticks that are multiples of 60 — it resets to 0 exactly after 60 appends. -/
theorem count_strictly_increasing_and_resets (n m : Nat) :
    (n / 60 = m / 60 → n < m → countState n < countState m) ∧
    (countState n = 0 ↔ n % 60 = 0) := by
  constructor
  · intro hw hlt
    rw [countState_mod, countState_mod]
    omega
  · rw [countState_mod]

/-- Witness for C2: ticks 61 and 65 lie in the same window and their counts
increase; tick 120 starts a window with count 0. -/
theorem count_strictly_increasing_and_resets_witness :
    countState 61 < countState 65 ∧ countState 120 = 0 :=
  ⟨(count_strictly_increasing_and_resets 61 65).1 (by decide) (by decide),
   ((count_strictly_increasing_and_resets 120 0).2).mpr (by decide)⟩

/-! ### Claim C3: appending at index 59 terminates the line -/

/-- C3 counterexample: in the `part_001`/`part_002` variants, an append at
index 59 writes only the line terminator — the value itself is dropped
(`file.print(data)` runs only for `count < 59`), so "writes the value
followed by a line terminator" is false there: the appended text is exactly
the CRLF pair, not the rendered value followed by it. -/
theorem write59_value_dropped_cex :
    write_file_v2 T0 true ("") 1234 59 = some crlf ∧
    ¬ write_file_v2 T0 true ("") 1234 59 = some (printFloat2 1234 ++ crlf) := by
  constructor
  · decide
  · decide

/-- C3 amended: in `main.cpp`, appending at index 59 writes the `dtostrf`
rendering of the value followed by the line terminator for every value (any
sign or magnitude), so the minute's line ends with a line break; in the
`part_001`/`part_002` variants only the terminator is written at index 59
(the sixtieth value is dropped), so the line still ends with a line break. -/
theorem write59_terminates_line (pre old : String) (t : DateTime) (ht : 2000 ≤ t.year)
    (d d2 : Int) :
    (write_file pre t true old d 59).contents = old ++ (dtostrf d ++ crlf) ∧
    ((write_file pre t true old d 59).contents.data.getLast? = some '\n') ∧
    write_file_v2 t true old d2 59 = some (old ++ crlf) := by
  have h1 : (write_file pre t true old d 59).contents = old ++ (dtostrf d ++ crlf) := by
    rw [write_file_contents_ok pre t ht]
    congr 1
  refine ⟨h1, ?_, ?_⟩
  · rw [h1]
    rw [string_data_append, string_data_append]
    have hsplit : old.data ++ ((dtostrf d).data ++ crlf.data) =
        (old.data ++ ((dtostrf d).data ++ ['\r'])) ++ ['\n'] := by
      show old.data ++ ((dtostrf d).data ++ (['\r'] ++ ['\n'])) =
        (old.data ++ ((dtostrf d).data ++ ['\r'])) ++ ['\n']
      simp [List.append_assoc]
    rw [hsplit, List.getLast?_concat]
  · unfold write_file_v2 writeChunkV2
    rw [if_pos rfl, if_neg (by omega), if_neg (by omega), if_pos rfl]
    rfl

/-- Witness for C3 at a concrete input: a large negative value at index 59
still ends the line. -/
theorem write59_terminates_line_witness :
    (write_file ("Amps ") T0 true ("") (-98765) 59).contents =
      ("") ++ (dtostrf (-98765) ++ crlf) :=
  (write59_terminates_line ("Amps ") ("") T0 (by decide) (-98765) 7).1

/-! ### Claim C4: the three-sample scenario line -/

/-- C4 counterexample: the C4 scenario does not produce the unpadded line
`14:35:00 --> 1.234, 1.235, -0.002, ` claimed — `dtostrf(data, 7, 3, ...)`
right-justifies every value to width 7 with spaces, so the actual line
carries leading spaces before each value. -/
theorem c4_scenario_cex :
    c4File ≠ ("\r\n14:35:00 --> 1.234, 1.235, -0.002, ") := by decide

/-- C4 amended: appending 1.234, 1.235, -0.002 at indices 0, 1, 2 on
2024-06-03 at 14:35:00-02 to an empty Amps file produces exactly the blank
line followed by `14:35:00 -->   1.234,   1.235,  -0.002, ` (each value
right-justified to width 7, with the trailing comma-and-space because
index 2 < 59), and the writes target the file `Amps 2024-06-03.txt`. -/
theorem c4_scenario_amended :
    c4File = ("\r\n14:35:00 -->   1.234,   1.235,  -0.002, ") ∧
    (write_file ("Amps ") T0 true ("") 1234 0).targetFile =
      some ("Amps 2024-06-03.txt") := by
  constructor
  · decide
  · decide

/-! ### Claim C5: the log file round-trips through the split-based parse -/

/-- C5: for every completed run of minute windows (each window sixty values
appended at counts 0..59 with a valid clock), parsing the produced log file —
splitting into lines at the terminator, dropping blank lines, splitting each
line at `" --> "`, splitting the remainder on `", "` and reading each piece —
reconstructs exactly the values appended, window by window, in order. -/
theorem log_round_trip (pre : String) (ms : List (DateTime × List Int))
    (h : ∀ p ∈ ms, 2000 ≤ p.1.year ∧ p.2.length = 60) :
    parseLogFile (writeMinutes pre ("") ms) = some (ms.map Prod.snd) := by
  unfold parseLogFile
  rw [writeMinutes_data pre ms ("") h]
  have hnil : ("" : String).data = [] := rfl
  rw [hnil, List.nil_append]
  rw [splitCRLF_fileData]
  refine parseLines_map ms (fun p hp hne => ?_)
  have hlen := (h p hp).2
  rw [hne] at hlen
  simp at hlen

/-- Witness for C5: one full minute of sixty zero readings round-trips. -/
theorem log_round_trip_witness :
    parseLogFile (writeMinutes ("Amps ") ("") [(T0, List.replicate 60 (0 : Int))]) =
      some [List.replicate 60 (0 : Int)] := by
  have h := log_round_trip ("Amps ") [(T0, List.replicate 60 (0 : Int))] (by decide)
  simpa using h

/-! ### Claim C6: an invalid clock date skips the write -/

/-- C6 counterexample: the `part_002` variant's `write_file` has no
clock-validity check at all — called with the clock reporting 1999-01-01 it
does not return an error and it appends the value (1.50 followed by the
comma separator) to the file, so "returns an error and writes nothing" is
false for that cited variant. -/
theorem clock_invalid_cex :
    write_file_v2 T1999 true ("") 150 1 = some ("1.50, ") := by decide

/-- C6 amended: in `main.cpp`, every `write_file` call with the clock
reporting a year before 2000 returns the `ClockInvalid` error and writes
nothing — the file is never opened (zero open attempts, no target filename
is even built) and the contents are unchanged; the `part_002` variant
performs no such check and appends its chunk regardless of the date. -/
theorem clock_invalid_skips_write (pre : String) (t : DateTime) (openOk : Bool)
    (old : String) (d d2 : Int) (c : Nat) (h : t.year < 2000) :
    write_file pre t openOk old d c = ⟨.clockInvalid, 0, 0, none, old⟩ ∧
    write_file_v2 t true old d2 c = some (old ++ writeChunkV2 t d2 c) := by
  constructor
  · unfold write_file
    rw [if_pos h]
  · unfold write_file_v2
    rw [if_pos rfl]

/-- Witness for C6 at a concrete input: year 1999 yields `ClockInvalid` with
contents untouched and no open attempt. -/
theorem clock_invalid_skips_write_witness :
    write_file ("Amps ") T1999 true ("abc") 5 3 =
      ⟨.clockInvalid, 0, 0, none, ("abc")⟩ :=
  (clock_invalid_skips_write ("Amps ") T1999 true ("abc") 5 7 3 (by decide)).1

/-! ### Claim C7: what happens when the file cannot be opened -/

/-- C7 counterexample: when the open fails, `write_file` does not
reinitialize the storage subsystem and does not attempt the open a second
time before surfacing the failure — the call makes exactly one open attempt
and zero `init_sd_card` calls, refuting the claimed reinit-and-retry. -/
theorem open_failure_no_retry_cex :
    ¬ ((write_file ("Amps ") T0 false ("") 1234 5).reinits = 1 ∧
       (write_file ("Amps ") T0 false ("") 1234 5).openAttempts = 2) := by decide

/-- C7 amended: on open failure `write_file` surfaces `StorageUnavailable`
immediately — one open attempt, no retry and no storage reinitialization
within the call, contents unchanged; storage reinitialization happens
elsewhere: the loop's 10-second SD check invokes `init_sd_card` when the
root-directory probe fails while the card was marked initialized. -/
theorem open_failure_immediate (pre : String) (t : DateTime) (ht : 2000 ≤ t.year)
    (old : String) (d : Int) (c : Nat) :
    write_file pre t false old d c =
      ⟨.storageUnavailable, 1, 0, some (logFileName pre t), old⟩ ∧
    (∀ initOk : Bool, sdCheckStep false true initOk = (initOk, true)) := by
  constructor
  · unfold write_file
    rw [if_neg (by omega)]
    rw [if_neg (by simp)]
  · intro initOk
    unfold sdCheckStep
    rw [if_neg (by simp), if_pos rfl]

/-- Witness for C7 at a concrete input. -/
theorem open_failure_immediate_witness :
    write_file ("Amps ") T0 false ("") 1234 5 =
      ⟨.storageUnavailable, 1, 0, some (logFileName ("Amps ") T0), ("")⟩ :=
  (open_failure_immediate ("Amps ") T0 (by decide) ("") 1234 5).1

/-! ### Claim C8: do storage errors halt the sampling loop? -/

/-- C8 counterexample: in the `part_001`/`part_002` variant loop a failed
file open during sampling runs `sd.errorHalt("opening file for write
failed")`, which halts the program — the tick never completes, so "no such
error ever halts the control loop" is false for those cited variants. -/
theorem storage_error_halts_variant_cex :
    variantStorageTick false T0 1 2 0 ("") ("") = none := by decide

/-- C8 amended: in `main.cpp` every storage outcome of a sampling tick is
local — the tick always completes and advances `count` by one (it never
halts); in particular, when the SD is marked initialized, the clock is valid
and the open fails, both appends report `StorageUnavailable`, the files stay
unchanged, and the loop still proceeds to the next tick.  In the
`part_001`/`part_002` variants a failed open instead halts the program. -/
theorem storage_error_main_continues (sdInit openOk : Bool) (t : DateTime)
    (a v : Int) (c : Nat) (fa fv : String) :
    (∃ fa2 fv2 rs, mainStorageTick sdInit openOk t a v c fa fv =
      some (c + 1, fa2, fv2, rs)) ∧
    (sdInit = true → openOk = false → 2000 ≤ t.year →
      mainStorageTick sdInit openOk t a v c fa fv =
        some (c + 1, fa, fv, [.storageUnavailable, .storageUnavailable])) := by
  constructor
  · unfold mainStorageTick
    by_cases h : sdInit = true
    · rw [if_pos h]
      exact ⟨_, _, _, rfl⟩
    · rw [if_neg h]
      exact ⟨fa, fv, [], rfl⟩
  · rintro rfl rfl hy
    have hny : ¬ t.year < 2000 := by omega
    unfold mainStorageTick write_file
    rw [if_pos rfl]
    rw [if_neg hny, if_neg (by simp), if_neg hny, if_neg (by simp)]

/-- Witness for C8 at a concrete input: SD initialized, open failing. -/
theorem storage_error_main_continues_witness :
    mainStorageTick true false T0 1 2 5 ("a") ("b") =
      some (6, ("a"), ("b"), [.storageUnavailable, .storageUnavailable]) :=
  (storage_error_main_continues true false T0 1 2 5 ("a") ("b")).2 rfl rfl (by decide)

/-! ### Claim C9: broker reconnects after three failures -/

/-- C9 counterexample: after a call in which all three broker-connect
attempts fail, the session is down (the supervisor is disconnected) — but on
the very next accepted tick of the loop (one second later, long before any
retry interval elapses) the loop calls `connect_mqtt` again and three more
attempts are made: the count of attempts on the next tick is 3, not 0. -/
theorem mqtt_retry_cex :
    (connect_mqtt true false (fun _ => false)).connectedAfter = false ∧
    tickMqttAttempts true ((connect_mqtt true false (fun _ => false)).connectedAfter)
      (fun _ => false) = 3 := by decide

theorem mqttAttemptLoop_all_fail (oracle : Nat → Bool) (h : ∀ k, oracle k = false) :
    ∀ rem made, mqttAttemptLoop oracle made rem = ⟨false, made + rem, 0, false⟩ := by
  intro rem
  induction rem with
  | zero => intro made; rw [mqttAttemptLoop, Nat.add_zero]
  | succ rem ih =>
    intro made
    rw [mqttAttemptLoop]
    rw [if_neg (by simp [h made])]
    rw [ih (made + 1)]
    congr 1
    omega

/-- C9 amended: with the broker refusing every attempt, one `connect_mqtt`
call makes exactly 3 attempts and gives up (returns `false`, session down);
but the loop is not gated by any retry interval for broker reconnects — a
tick taken in that state (WiFi up, session down) immediately performs 3 more
broker-connect attempts (only WiFi reconnection is interval-gated, by
`WIFI_RETRY_INTERVAL`). -/
theorem mqtt_retry_every_tick (oracle : Nat → Bool) (h : ∀ k, oracle k = false) :
    connect_mqtt true false oracle = ⟨false, 3, 0, false⟩ ∧
    tickMqttAttempts true false oracle = 3 := by
  have hconn : connect_mqtt true false oracle = ⟨false, 3, 0, false⟩ := by
    unfold connect_mqtt
    rw [if_neg (by simp), if_neg (by simp)]
    exact mqttAttemptLoop_all_fail oracle h 3 0
  refine ⟨hconn, ?_⟩
  unfold tickMqttAttempts
  rw [if_neg (by simp), if_pos (by simp)]
  rw [hconn]

/-- Witness for C9 with the always-failing broker oracle. -/
theorem mqtt_retry_every_tick_witness :
    connect_mqtt true false (fun _ => false) = ⟨false, 3, 0, false⟩ :=
  (mqtt_retry_every_tick (fun _ => false) (fun _ => rfl)).1

/-! ### Claim C10: calling connect_mqtt with the session already up -/

/-- C10 counterexample: `connect_mqtt` checks the `wifi_connected` flag
before checking the broker session — with the flag down and the session
still reported connected it returns `false`, not `true`, so "returns true
immediately whenever the broker session is already connected" is false as
stated. -/
theorem mqtt_connected_cex :
    (connect_mqtt false true (fun _ => true)).ret = false := by decide

/-- C10 amended: when the broker session is already connected,
`connect_mqtt` returns immediately with no connect attempt, no publish and
no state change; its return value is the `wifi_connected` flag — `true`
exactly when WiFi is marked connected (the flag is tested first, so with
WiFi marked down the call returns `false` even though the session is up). -/
theorem mqtt_connected_idempotent (wifi : Bool) (oracle : Nat → Bool) :
    connect_mqtt wifi true oracle = ⟨wifi, 0, 0, true⟩ := by
  cases wifi
  · unfold connect_mqtt
    rw [if_pos rfl]
  · unfold connect_mqtt
    rw [if_neg (by simp), if_pos rfl]
